import Mathlib

/-!
Verification development for the structured page digestor with
content-addressed cache-admission logic (ai-geo-diagnosis).

The definitions below are a shallow embedding of the TypeScript source:
  * `src/lib/scraper.ts` (latest revision): `validateUrlSecurity`,
    `isPrivateIP`, `isBlockedHostname`, and the cheerio extraction portion
    of `scrapeUrl` (modelled here as the pure function `extract`);
  * `src/lib/supabase-client.ts`: `getCachedResult`;
  * `src/lib/supabase-admin.ts`: `checkAndResetCredits`, `consumeCredit`,
    `saveCachedResult`;
  * `src/pages/api/diagnose.ts`: the cache-hit / oracle / credit portion of
    the `POST` handler (modelled as `postAfterAuth`).

JavaScript string primitives (`trim`, `slice`, `toLowerCase`, substring
regex tests) are modelled over `List Char` data of Lean strings; JS string
`.length` (UTF-16 units) is modelled by character count, which coincides on
the BMP text the source manipulates.
-/

set_option autoImplicit false

namespace Geo

/-! ### JavaScript string primitives -/

/-- Model of JS `String.prototype.trim`: strip leading and trailing
whitespace characters. -/
def jsTrim (s : String) : String :=
  ⟨((s.data.dropWhile Char.isWhitespace).reverse.dropWhile Char.isWhitespace).reverse⟩

/-- Model of JS `String.prototype.slice(0, n)`: keep the first `n`
characters. -/
def jsSlice (s : String) (n : Nat) : String :=
  ⟨s.data.take n⟩

/-- Model of JS `String.prototype.toLowerCase` (ASCII range; the
case-sensitive keywords in the source are ASCII or Japanese). -/
def jsLower (s : String) : String :=
  ⟨s.data.map Char.toLower⟩

/-- Does `needle` occur at the head of `hay`? -/
def matchesAt : List Char → List Char → Bool
  | [], _ => true
  | _ :: _, [] => false
  | n :: ns, h :: hs => n == h && matchesAt ns hs

/-- Does `needle` occur anywhere in `hay`? -/
def containsAux (needle : List Char) : List Char → Bool
  | [] => needle.isEmpty
  | h :: hs => matchesAt needle (h :: hs) || containsAux needle hs

/-- Model of a JS anchored-nowhere regex literal / `String.includes`:
substring occurrence test. -/
def strContains (hay needle : String) : Bool :=
  containsAux needle.data hay.data

/-- Does some needle of the list occur in `hay`?  Models a regex
alternation of literal strings. -/
def strContainsAny (hay : String) (needles : List String) : Bool :=
  needles.any (fun n => strContains hay n)

/-- Is there a character satisfying `p` immediately followed by one
satisfying `q`?  Models regexes of the shape `p+[q]` / `[p][q]+`. -/
def hasPairMatch (p q : Char → Bool) : List Char → Bool
  | a :: b :: rest => (p a && q b) || hasPairMatch p q (b :: rest)
  | _ => false

/-- JS `a || b` on strings: `b` when `a` is empty (falsy), else `a`. -/
def jsOrS (a b : String) : String := if a = "" then b else a

/-- `String.startsWith`, over character lists. -/
def jsStartsWith (s pre : String) : Bool :=
  matchesAt pre.data s.data

/-- `String.endsWith`, over character lists. -/
def jsEndsWith (s suf : String) : Bool :=
  matchesAt suf.data.reverse s.data.reverse

/-- Split on whitespace (with empty pieces, as JS `split(/\s/)`). -/
def splitWsAux (acc : List Char) : List Char → List String
  | [] => [⟨acc.reverse⟩]
  | c :: cs =>
      if c.isWhitespace then ⟨acc.reverse⟩ :: splitWsAux [] cs
      else splitWsAux (c :: acc) cs

/-! ### First-occurrence deduplication (JS `[...new Set(xs)]`)

A JS `Set` built from an array keeps the first occurrence of each element,
in insertion order.  `dedupFirst` reproduces that; the accumulator holds
the values already seen. -/

def dedupFirstAux (seen : List String) : List String → List String
  | [] => []
  | x :: xs =>
      if x ∈ seen then dedupFirstAux seen xs
      else x :: dedupFirstAux (x :: seen) xs

/-- Model of `[...new Set(xs)]` for string arrays. -/
def dedupFirst (xs : List String) : List String :=
  dedupFirstAux [] xs

theorem dedupFirstAux_sublist (seen : List String) (xs : List String) :
    List.Sublist (dedupFirstAux seen xs) xs := by
  induction xs generalizing seen with
  | nil => simp [dedupFirstAux]
  | cons x xs ih =>
      by_cases hx : x ∈ seen
      · simpa [dedupFirstAux, hx] using List.Sublist.cons x (ih seen)
      · simpa [dedupFirstAux, hx] using List.Sublist.cons₂ x (ih (x :: seen))

theorem mem_dedupFirstAux {y : String} (seen : List String) (xs : List String) :
    y ∈ dedupFirstAux seen xs ↔ y ∈ xs ∧ y ∉ seen := by
  induction xs generalizing seen with
  | nil => simp [dedupFirstAux]
  | cons x xs ih =>
      by_cases hx : x ∈ seen
      · rw [dedupFirstAux, if_pos hx, ih seen]
        constructor
        · rintro ⟨hy, hs⟩
          exact ⟨List.mem_cons_of_mem x hy, hs⟩
        · rintro ⟨hy, hs⟩
          rcases List.mem_cons.mp hy with rfl | hy
          · exact absurd hx hs
          · exact ⟨hy, hs⟩
      · rw [dedupFirstAux, if_neg hx]
        constructor
        · intro hy
          rcases List.mem_cons.mp hy with rfl | hy
          · exact ⟨List.mem_cons_self _ _, hx⟩
          · rcases (ih (x :: seen)).mp hy with ⟨h1, h2⟩
            refine ⟨List.mem_cons_of_mem x h1, fun hs => h2 ?_⟩
            exact List.mem_cons_of_mem x hs
        · rintro ⟨hy, hs⟩
          rcases List.mem_cons.mp hy with rfl | hy
          · exact List.mem_cons_self _ _
          · by_cases hyx : y = x
            · subst hyx; exact List.mem_cons_self _ _
            · exact List.mem_cons_of_mem x
                ((ih (x :: seen)).mpr ⟨hy, by simp [hyx, hs]⟩)

theorem dedupFirstAux_nodup (seen : List String) (xs : List String) :
    (dedupFirstAux seen xs).Nodup := by
  induction xs generalizing seen with
  | nil => simp [dedupFirstAux]
  | cons x xs ih =>
      by_cases hx : x ∈ seen
      · simpa [dedupFirstAux, hx] using ih seen
      · rw [dedupFirstAux, if_neg hx]
        refine List.nodup_cons.mpr ⟨fun hmem => ?_, ih (x :: seen)⟩
        exact ((mem_dedupFirstAux (x :: seen) xs).mp hmem).2 (List.mem_cons_self _ _)

theorem dedupFirst_sublist (xs : List String) : List.Sublist (dedupFirst xs) xs :=
  dedupFirstAux_sublist [] xs

theorem dedupFirst_nodup (xs : List String) : (dedupFirst xs).Nodup :=
  dedupFirstAux_nodup [] xs

theorem mem_dedupFirst {y : String} (xs : List String) :
    y ∈ dedupFirst xs ↔ y ∈ xs := by
  rw [dedupFirst, mem_dedupFirstAux]
  simp

/-- `dedupFirst` keeps the head of the list: the first-encountered element
survives deduplication in first position. -/
theorem dedupFirst_cons (x : String) (xs : List String) :
    dedupFirst (x :: xs) = x :: dedupFirstAux [x] xs := by
  rw [dedupFirst, dedupFirstAux, if_neg (List.not_mem_nil x)]

theorem length_jsSlice_le (s : String) (n : Nat) : (jsSlice s n).length ≤ n :=
  List.length_take_le n s.data

/-! ### DOM model

A parsed DOM snapshot: element nodes with a tag, attribute list and
children, plus text nodes.  cheerio selections are modelled as filters over
the pre-order (document-order) traversal. -/

inductive Node where
  | text (s : String)
  | elem (tag : String) (attrs : List (String × String)) (children : List Node)

/-- Tag of a node (empty for a text node). -/
def Node.tag : Node → String
  | .text _ => ""
  | .elem t _ _ => t

/-- First binding of attribute `k` on an element node. -/
def Node.attr : Node → String → Option String
  | .text _, _ => none
  | .elem _ attrs _, k => (attrs.find? (fun p => p.1 == k)).map Prod.snd

/-- The raw `class` attribute value (empty when absent). -/
def Node.classAttr (n : Node) : String :=
  (n.attr "class").getD ""

/-- CSS attribute-substring selector `[class*="sub"]`. -/
def classContains (sub : String) (n : Node) : Bool :=
  strContains n.classAttr sub

/-- Whitespace-separated class tokens, for CSS class selectors `.cls`. -/
def classTokens (n : Node) : List String :=
  (splitWsAux [] n.classAttr.data).filter (fun t => t ≠ "")

/-- CSS class selector `.cls`. -/
def hasClassToken (tok : String) (n : Node) : Bool :=
  (classTokens n).contains tok

mutual

/-- cheerio `$(el).text()`: concatenated text of all descendant text nodes,
in document order. -/
def Node.textContent : Node → String
  | .text s => s
  | .elem _ _ cs => textContentList cs

def textContentList : List Node → String
  | [] => ""
  | c :: cs => c.textContent ++ textContentList cs

end

/-- cheerio `$(el).clone().children().remove().end().text()`: the element's
own text — concatenation of its direct text-node children only. -/
def Node.ownText : Node → String
  | .text s => s
  | .elem _ _ cs => String.join (cs.filterMap (fun c =>
      match c with
      | .text s => some s
      | .elem _ _ _ => none))

/-! Non-content stripping: `$('script, style, noscript, iframe, svg, nav,
footer').remove()` runs before any extraction. -/

def strippedTags : List String :=
  ["script", "style", "noscript", "iframe", "svg", "nav", "footer"]

mutual

/-- Strip the non-content subtrees from a node (empty result when the node
itself is stripped). -/
def stripNode : Node → List Node
  | .text s => [.text s]
  | .elem t a cs =>
      if t ∈ strippedTags then [] else [.elem t a (stripList cs)]

def stripList : List Node → List Node
  | [] => []
  | c :: cs => stripNode c ++ stripList cs

end

/-! Document-order annotation.  `NodeInfo` pairs each element with the flag
"is it the first element child of its parent" (for `:first-child`) and its
ancestor chain, each ancestor with its own first-child flag. -/

structure NodeInfo where
  node : Node
  isFirstElemChild : Bool
  ancs : List (Node × Bool)

mutual

/-- Pre-order annotation of one node. -/
def infoOf (ancs : List (Node × Bool)) (isFirst : Bool) : Node → List NodeInfo
  | .text _ => []
  | .elem t a cs =>
      ⟨.elem t a cs, isFirst, ancs⟩ :: infoList ((Node.elem t a cs, isFirst) :: ancs) true cs

/-- Pre-order annotation of a sibling list; `isFirst` tells whether the
next element node encountered is the first element child. -/
def infoList (ancs : List (Node × Bool)) (isFirst : Bool) : List Node → List NodeInfo
  | [] => []
  | .text _ :: cs => infoList ancs isFirst cs
  | .elem t a cs' :: cs =>
      infoOf ancs isFirst (.elem t a cs') ++ infoList ancs false cs

end

/-- All elements of the stripped document in document order, annotated. -/
def docInfos (doc : Node) : List NodeInfo :=
  infoList [] true (stripNode doc)

/-- Strict descendants of an (already stripped) element, annotated with
ancestors inside its subtree: cheerio `$(el).find(...)` candidates. -/
def subInfos (n : Node) : List NodeInfo :=
  match n with
  | .text _ => []
  | .elem _ _ cs => infoList [(n, true)] true cs

end Geo

namespace Geo

/-! ### URL model (JS `new URL`)

A simplified WHATWG URL parser sufficient for the source's uses: scheme
validation, authority splitting into hostname/port, and relative-reference
resolution against a base.  Special-scheme URLs without `//` (for example
`http:example.com`) are treated as unparseable — the source never produces
that form. -/

structure JsUrl where
  /-- Scheme with the trailing colon, lowercased: JS `url.protocol`. -/
  protocol : String
  /-- Lowercased host: JS `url.hostname`. -/
  hostname : String
  /-- Port digits (empty when absent): JS `url.port`. -/
  port : String
deriving DecidableEq

def isSchemeChar (c : Char) : Bool :=
  c.isAlpha || c.isDigit || c == '+' || c == '-' || c == '.'

/-- Split a candidate absolute URL into scheme (lowercased, without colon)
and remainder, or `none` when it has no valid scheme prefix. -/
def splitScheme (s : String) : Option (String × String) :=
  let pre := s.data.takeWhile (fun c => c ≠ ':')
  if pre.length = s.data.length then none
  else if pre ≠ [] && (pre.headD ' ').isAlpha && pre.all isSchemeChar then
    some (⟨pre.map Char.toLower⟩, ⟨s.data.drop (pre.length + 1)⟩)
  else none

def specialSchemes : List String := ["http", "https", "ws", "wss", "ftp", "file"]

/-- Parse what follows `scheme://`: hostname up to `/`, `?` or `#`, then an
optional numeric port.  A special scheme with an empty host is a parse
failure, as in WHATWG. -/
def parseAuthority (scheme : String) (rest : List Char) : Option JsUrl :=
  let auth := rest.takeWhile (fun c => c ≠ '/' && c ≠ '?' && c ≠ '#')
  let hostPart := auth.takeWhile (fun c => c ≠ ':')
  let portPart := auth.drop (hostPart.length + 1)
  if portPart.all Char.isDigit then
    let hostname : String := ⟨hostPart.map Char.toLower⟩
    if scheme ∈ specialSchemes && hostname = "" then none
    else some ⟨scheme ++ ":", hostname, ⟨portPart⟩⟩
  else none

/-- Model of `new URL(s)` on an absolute URL string. -/
def parseUrl (s : String) : Option JsUrl :=
  match splitScheme s with
  | none => none
  | some (scheme, rest) =>
      if jsStartsWith rest "//" then parseAuthority scheme (rest.data.drop 2)
      else if scheme ∈ specialSchemes then none
      else some ⟨scheme ++ ":", "", ""⟩

/-- Model of `new URL(href, base)`: absolute `href` stands alone; otherwise
`href` is resolved against `base` (protocol-relative `//host` swaps the
authority, any other relative reference keeps the base authority). -/
def newURL (href base : String) : Option JsUrl :=
  match splitScheme href with
  | some _ => parseUrl href
  | none =>
      match parseUrl base with
      | none => none
      | some b =>
          if jsStartsWith href "//" then
            parseAuthority (jsSlice b.protocol (b.protocol.length - 1)) (href.data.drop 2)
          else some b

/-! ### AddressGuard (`validateUrlSecurity` in `scraper.ts`)

The private-range regex table `PRIVATE_IP_PATTERNS`, the blocked hostname
list `BLOCKED_HOSTNAMES` and the blocked domain patterns
`BLOCKED_DOMAIN_PATTERNS`, transcribed pattern for pattern. -/

/-- Second-octet alternatives of the carrier-grade-NAT pattern
`/^100\.(6[4-9]|[7-9][0-9]|1[0-2][0-7])\./` (the last alternative really
matches only last digits 0–7, as in the source). -/
def cgnOctets : List Nat :=
  (List.range 6).map (fun i => 64 + i) ++
  (List.range 30).map (fun i => 70 + i) ++
  (List.range 3).flatMap (fun a => (List.range 8).map (fun b => 100 + 10 * a + b))

/-- `isPrivateIP`: does the string match one of `PRIVATE_IP_PATTERNS`? -/
def isPrivateIP (ip : String) : Bool :=
  jsStartsWith ip "10." ||
  (List.range 16).any (fun i => jsStartsWith ip ("172." ++ toString (16 + i) ++ ".")) ||
  jsStartsWith ip "192.168." ||
  jsStartsWith ip "169.254." ||
  jsStartsWith ip "127." ||
  jsStartsWith ip "0." ||
  cgnOctets.any (fun o => jsStartsWith ip ("100." ++ toString o ++ ".")) ||
  jsStartsWith ip "198.18." || jsStartsWith ip "198.19." ||
  ip == "::1" ||
  jsStartsWith (jsLower ip) "fc" ||
  jsStartsWith (jsLower ip) "fd" ||
  jsStartsWith (jsLower ip) "fe80:"

def BLOCKED_HOSTNAMES : List String :=
  ["localhost", "127.0.0.1", "::1", "0.0.0.0",
   "metadata.google.internal", "metadata.google.cloud"]

/-- `isBlockedHostname`: exact blocklist membership, then the
`BLOCKED_DOMAIN_PATTERNS` table. -/
def isBlockedHostname (hostname : String) : Bool :=
  let lowerHostname := jsLower hostname
  lowerHostname ∈ BLOCKED_HOSTNAMES ||
  lowerHostname == "169.254.169.254" ||
  jsStartsWith lowerHostname "metadata." ||
  jsEndsWith lowerHostname ".internal" ||
  jsEndsWith lowerHostname ".local"

/-- The typed failures of `validateUrlSecurity` (each `throw new Error` in
the source, in order). -/
inductive UrlError where
  | invalidUrl
  | badProtocol
  | emptyHostname
  | blockedHostname
  | privateIp
  | dnsPrivateIp
deriving DecidableEq

/-- `validateUrlSecurity(url)`, parameterised by the DNS resolvers
(`dns.resolve4` / `dns.resolve6`, a resolution failure being the empty
list, which the source swallows).  Pure validation before any fetch: the
caller `scrapeUrl` only launches the browser after this returns `ok`.
The non-standard-port branch only logs a warning and rejects nothing. -/
def validateUrlSecurity (resolve4 resolve6 : String → List String)
    (url : String) : Except UrlError Unit :=
  match parseUrl url with
  | none => .error .invalidUrl
  | some parsed =>
      if ¬ (parsed.protocol = "http:" ∨ parsed.protocol = "https:") then
        .error .badProtocol
      else if parsed.hostname = "" then .error .emptyHostname
      else if isBlockedHostname parsed.hostname then .error .blockedHostname
      else if isPrivateIP parsed.hostname then .error .privateIp
      else if (resolve4 parsed.hostname).any isPrivateIP then .error .dnsPrivateIp
      else if (resolve6 parsed.hostname).any isPrivateIP then .error .dnsPrivateIp
      else .ok ()

/-! ### DigestCache (`getCachedResult` / `saveCachedResult`)

The `analysis_results` table is modelled as a list of rows in insertion
order; `created_at` is an abstract timestamp. -/

structure CacheRow where
  url_hash : String
  content_hash : String
  language : String
  model : String
  overall_score : Int
  advice_data : String
  created_at : Nat
deriving DecidableEq

/-- The row filter of `getCachedResult`: `.eq` on url/content/language and,
only when `requiredModel` is supplied, `.eq` on the model tag. -/
def rowMatches (urlHash contentHash language : String)
    (requiredModel : Option String) (r : CacheRow) : Bool :=
  r.url_hash == urlHash && r.content_hash == contentHash &&
  r.language == language &&
  (match requiredModel with
   | none => true
   | some m => r.model == m)

/-- `order('created_at', descending).limit(1).maybeSingle()`: the matching
row with the greatest `created_at` (earliest-inserted wins a tie, the
database order being unspecified there). -/
def latestRow : List CacheRow → Option CacheRow
  | [] => none
  | r :: rs =>
      match latestRow rs with
      | none => some r
      | some best => if best.created_at > r.created_at then some best else some r

/-- `getCachedResult(urlHash, contentHash, language, requiredModel?)`. -/
def getCachedResult (db : List CacheRow) (urlHash contentHash : String)
    (language : String) (requiredModel : Option String) : Option CacheRow :=
  latestRow (db.filter (rowMatches urlHash contentHash language requiredModel))

/-- `saveCachedResult`: append-only insert into `analysis_results`. -/
def saveCachedResult (db : List CacheRow) (row : CacheRow) : List CacheRow :=
  db ++ [row]

/-! ### Credits (`supabase-admin.ts`) -/

structure Profile where
  is_premium : Bool
  free_credits : Int
  /-- `credits_reset_at` as an epoch-milliseconds timestamp. -/
  credits_reset_at : Option Int
deriving DecidableEq

def thirtyDaysMs : Int := 30 * 24 * 60 * 60 * 1000

/-- `checkAndResetCredits` (happy path: reads and updates succeed).
Returns the resulting profile plus the log of `free_credits` values
written to the profile row. -/
def checkAndResetCredits (now : Int) (profile : Option Profile) :
    Option Profile × List Int :=
  match profile with
  | none => (none, [])
  | some p =>
      let shouldReset :=
        match p.credits_reset_at with
        | none => true
        | some resetAt => now - resetAt > thirtyDaysMs
      if shouldReset then
        (some { p with free_credits := 3, credits_reset_at := some now }, [3])
      else (some p, [])

/-- `consumeCredit`: reset check, premium bypass, floor-at-zero guard, then
the decrement write.  Result: (returned boolean, final profile, log of
`free_credits` values written). -/
def consumeCredit (now : Int) (profile : Option Profile) :
    Bool × Option Profile × List Int :=
  match checkAndResetCredits now profile with
  | (none, w) => (false, none, w)
  | (some p, w) =>
      if p.is_premium then (true, some p, w)
      else if p.free_credits ≤ 0 then (false, some p, w)
      else (true, some { p with free_credits := p.free_credits - 1 },
            w ++ [p.free_credits - 1])

end Geo

namespace Geo

/-! ### StructuralExtractor (`scrapeUrl` in `scraper.ts`, cheerio portion)

`extract doc url` models what `scrapeUrl` computes from the rendered DOM
and the source URL, minus the browser driving and the screenshot (which
come from the renderer, not from the DOM walk).  Every collector below is
one cheerio query of the source, in source order. -/

structure Hero where
  headline : String
  subHeadline : String
  cta : String
  hasHeroImage : Bool
deriving DecidableEq

structure ProofSection where
  testimonials : List String
  stats : List String
  hasLogos : Bool
  media : List String
deriving DecidableEq

structure Pricing where
  displayed : Bool
  text : String
deriving DecidableEq

structure TrustSignals where
  hasCompanyInfo : Bool
  hasPrivacyPolicy : Bool
  hasTokushoho : Bool
  hasContact : Bool
deriving DecidableEq

structure MetaInfo where
  title : String
  description : String
deriving DecidableEq

structure Heading where
  level : Nat
  text : String
deriving DecidableEq

inductive LinkType where
  | internal
  | external
deriving DecidableEq

structure LinkInfo where
  type : LinkType
  url : String
  text : String
deriving DecidableEq

structure TableInfo where
  headers : List String
  rows : List (List String)
deriving DecidableEq

structure StructuredLP where
  url : String
  hero : Hero
  valueProps : List String
  proof : ProofSection
  pricing : Pricing
  faq : List String
  trustSignals : TrustSignals
  urgency : List String
  ctas : List String
  meta : MetaInfo
  bodyText : String
  codeBlocks : List String
  headings : List Heading
  links : List LinkInfo
  tables : List TableInfo
deriving DecidableEq

/-- `$('h1').first().text().trim()`. -/
def h1Text (doc : Node) : String :=
  match (docInfos doc).find? (fun i => i.node.tag == "h1") with
  | none => ""
  | some i => jsTrim i.node.textContent

/-- `$('header, [class*="hero"], [class*="Hero"], section').first()`. -/
def heroSection (doc : Node) : Option Node :=
  ((docInfos doc).find? (fun i =>
      i.node.tag == "header" || classContains "hero" i.node ||
      classContains "Hero" i.node || i.node.tag == "section")).map NodeInfo.node

/-- `heroSection.find('p, h2').first().text().trim().slice(0, 200)`. -/
def subHeadlineOf (doc : Node) : String :=
  match heroSection doc with
  | none => ""
  | some h =>
      match (subInfos h).find? (fun i => i.node.tag == "p" || i.node.tag == "h2") with
      | none => ""
      | some i => jsSlice (jsTrim i.node.textContent) 200

/-- `heroSection.find('a, button').first().text().trim()`. -/
def heroCtaOf (doc : Node) : String :=
  match heroSection doc with
  | none => ""
  | some h =>
      match (subInfos h).find? (fun i => i.node.tag == "a" || i.node.tag == "button") with
      | none => ""
      | some i => jsTrim i.node.textContent

/-- `heroSection.find('img').length > 0 || $('[class*="hero"] img').length > 0`. -/
def hasHeroImageOf (doc : Node) : Bool :=
  (match heroSection doc with
   | none => false
   | some h => (subInfos h).any (fun i => i.node.tag == "img")) ||
  (docInfos doc).any (fun i =>
    i.node.tag == "img" && i.ancs.any (fun ab => classContains "hero" ab.1))

/-- `$('h2, h3')` texts kept when non-empty, under 100 chars, and not
matching the denylist `/FAQ|よくある|お問い合わせ|会社概要/`. -/
def collectValueProps (doc : Node) : List String :=
  ((docInfos doc).filter (fun i => i.node.tag == "h2" || i.node.tag == "h3")).filterMap
    (fun i =>
      let text := jsTrim i.node.textContent
      if text ≠ "" && text.length < 100 &&
          !(strContainsAny text ["FAQ", "よくある", "お問い合わせ", "会社概要"]) then
        some text
      else none)

/-- `$('[class*="testimonial"], [class*="review"], [class*="voice"],
[class*="お客様"]')` texts, trimmed, sliced to 300, kept when non-empty. -/
def collectTestimonials (doc : Node) : List String :=
  ((docInfos doc).filter (fun i =>
      classContains "testimonial" i.node || classContains "review" i.node ||
      classContains "voice" i.node || classContains "お客様" i.node)).filterMap
    (fun i =>
      let text := jsSlice (jsTrim i.node.textContent) 300
      if text ≠ "" then some text else none)

/-- The regex `/\d+[%万件人社名]/`: a digit immediately followed by a unit
character. -/
def matchesStat (s : String) : Bool :=
  hasPairMatch Char.isDigit (fun c => ['%', '万', '件', '人', '社', '名'].contains c) s.data

/-- `$('*')` own-texts (children removed) matching the stat regex, sliced
to 100. -/
def collectStats (doc : Node) : List String :=
  (docInfos doc).filterMap (fun i =>
    let text := jsTrim i.node.ownText
    if matchesStat text then some (jsSlice text 100) else none)

/-- `$('[class*="logo"], [class*="client"], [class*="partner"]').length > 0`. -/
def hasLogosOf (doc : Node) : Bool :=
  (docInfos doc).any (fun i =>
    classContains "logo" i.node || classContains "client" i.node ||
    classContains "partner" i.node)

/-- `$('[class*="media"], [class*="掲載"]')` texts, trimmed, sliced to 100,
kept when non-empty. -/
def collectMedia (doc : Node) : List String :=
  ((docInfos doc).filter (fun i =>
      classContains "media" i.node || classContains "掲載" i.node)).filterMap
    (fun i =>
      let text := jsSlice (jsTrim i.node.textContent) 100
      if text ≠ "" then some text else none)

/-- The pricing-section selector `[class*="price"], [class*="pricing"],
[class*="料金"], [class*="プラン"]`. -/
def pricingInfos (doc : Node) : List NodeInfo :=
  (docInfos doc).filter (fun i =>
    classContains "price" i.node || classContains "pricing" i.node ||
    classContains "料金" i.node || classContains "プラン" i.node)

/-- `pricingSection.text().trim().slice(0, 500)`: the concatenated text of
every matched element. -/
def pricingTextOf (doc : Node) : String :=
  jsSlice (jsTrim (String.join ((pricingInfos doc).map (fun i => i.node.textContent)))) 500

/-- The regex `/[¥￥][0-9,]+|月額|年額/`. -/
def matchesYen (s : String) : Bool :=
  hasPairMatch (fun c => c == '¥' || c == '￥') (fun c => c.isDigit || c == ',') s.data ||
  strContains s "月額" || strContains s "年額"

/-- `pricingSection.length > 0 || $('*').text().match(...) !== null`; the
`$('*').text()` operand concatenates the text of every element of the
document (each text node thus repeated once per ancestor). -/
def hasPricingOf (doc : Node) : Bool :=
  !(pricingInfos doc).isEmpty ||
  matchesYen (String.join ((docInfos doc).map (fun i => i.node.textContent)))

/-- `$('[class*="faq"], [class*="FAQ"], dt, [class*="question"]')` texts,
trimmed, sliced to 200, kept under the source's mixed-precedence condition
`(text && text.includes('？')) || text.includes('?')`. -/
def collectFaq (doc : Node) : List String :=
  ((docInfos doc).filter (fun i =>
      classContains "faq" i.node || classContains "FAQ" i.node ||
      i.node.tag == "dt" || classContains "question" i.node)).filterMap
    (fun i =>
      let text := jsSlice (jsTrim i.node.textContent) 200
      if (text ≠ "" && strContains text "？") || strContains text "?" then some text
      else none)

/-- `$('body').text().toLowerCase()`. -/
def pageTextOf (doc : Node) : String :=
  jsLower (String.join (((docInfos doc).filter (fun i => i.node.tag == "body")).map
    (fun i => i.node.textContent)))

/-- The four keyword-derived trust flags. -/
def trustSignalsOf (doc : Node) : TrustSignals :=
  let pageText := pageTextOf doc
  { hasCompanyInfo := strContainsAny pageText ["会社概要", "運営会社", "about"]
    hasPrivacyPolicy := strContainsAny pageText ["プライバシー", "privacy"]
    hasTokushoho := strContainsAny pageText ["特定商取引", "特商法"]
    hasContact := strContainsAny pageText ["お問い合わせ", "contact"] }

/-- The urgency regex
`/期間限定|今だけ|残り|限定|先着|締切|終了間近|急げ|今すぐ/`. -/
def matchesUrgency (s : String) : Bool :=
  strContainsAny s ["期間限定", "今だけ", "残り", "限定", "先着", "締切", "終了間近", "急げ", "今すぐ"]

/-- `$('*')` own-texts matching the urgency patterns, sliced to 100. -/
def collectUrgency (doc : Node) : List String :=
  (docInfos doc).filterMap (fun i =>
    let text := jsTrim i.node.ownText
    if matchesUrgency text then some (jsSlice text 100) else none)

/-- `$('button, a[class*="btn"], a[class*="button"], input[type="submit"],
[class*="cta"]')` labels: trimmed text, else the `value` attribute; kept
when non-empty and under 50 chars. -/
def collectCtas (doc : Node) : List String :=
  ((docInfos doc).filter (fun i =>
      i.node.tag == "button" ||
      (i.node.tag == "a" && (classContains "btn" i.node || classContains "button" i.node)) ||
      (i.node.tag == "input" && (i.node.attr "type" == some "submit")) ||
      classContains "cta" i.node)).filterMap
    (fun i =>
      let text := jsOrS (jsTrim i.node.textContent) ((i.node.attr "value").getD "")
      if text ≠ "" && text.length < 50 then some text else none)

/-- `$('title').text().trim()` (all title elements concatenated). -/
def titleOf (doc : Node) : String :=
  jsTrim (String.join (((docInfos doc).filter (fun i => i.node.tag == "title")).map
    (fun i => i.node.textContent)))

/-- `$('meta[name="description"]').attr('content')?.trim() || ''`. -/
def descriptionOf (doc : Node) : String :=
  match (docInfos doc).find? (fun i =>
      i.node.tag == "meta" && (i.node.attr "name" == some "description")) with
  | none => ""
  | some i => jsTrim ((i.node.attr "content").getD "")

/-- Ancestor predicate of the scoped body-text selector `article p, main p,
section p, .content p, .post p, .entry p, .body p`. -/
def isContentContainer (n : Node) : Bool :=
  n.tag == "article" || n.tag == "main" || n.tag == "section" ||
  hasClassToken "content" n || hasClassToken "post" n ||
  hasClassToken "entry" n || hasClassToken "body" n

/-- Scoped paragraph collection: `p` under a semantic content container,
trimmed, kept when longer than 30 chars. -/
def scopedParagraphs (doc : Node) : List String :=
  ((docInfos doc).filter (fun i =>
      i.node.tag == "p" && i.ancs.any (fun ab => isContentContainer ab.1))).filterMap
    (fun i =>
      let text := jsTrim i.node.textContent
      if text ≠ "" && text.length > 30 then some text else none)

/-- Unscoped fallback: every `p` element, same text filter. -/
def allParagraphs (doc : Node) : List String :=
  ((docInfos doc).filter (fun i => i.node.tag == "p")).filterMap
    (fun i =>
      let text := jsTrim i.node.textContent
      if text ≠ "" && text.length > 30 then some text else none)

/-- `bodyParagraphs`: the scoped collection, falling back to the unscoped
one when the scoped collection gathered nothing. -/
def bodyParagraphsOf (doc : Node) : List String :=
  let scopedPs := scopedParagraphs doc
  if scopedPs.isEmpty then allParagraphs doc else scopedPs

/-- `[...new Set(bodyParagraphs)].join('\n\n').slice(0, 5000)`. -/
def bodyTextOf (doc : Node) : String :=
  jsSlice (String.intercalate "\n\n" (dedupFirst (bodyParagraphsOf doc))) 5000

/-- `$('pre, pre code, code')` (as a set: all `pre` and `code` elements)
texts, trimmed, kept when longer than 20 and shorter than 3000 chars. -/
def collectCodeBlocks (doc : Node) : List String :=
  ((docInfos doc).filter (fun i => i.node.tag == "pre" || i.node.tag == "code")).filterMap
    (fun i =>
      let code := jsTrim i.node.textContent
      if code ≠ "" && code.length > 20 && code.length < 3000 then some code else none)

def headingLevel (tag : String) : Nat :=
  if tag == "h1" then 1 else if tag == "h2" then 2 else if tag == "h3" then 3
  else if tag == "h4" then 4 else if tag == "h5" then 5 else if tag == "h6" then 6 else 0

/-- `$('h1, h2, h3, h4, h5, h6')` in document order, text trimmed, kept
when non-empty and under 200 chars. -/
def collectHeadings (doc : Node) : List Heading :=
  ((docInfos doc).filter (fun i =>
      ["h1", "h2", "h3", "h4", "h5", "h6"].contains i.node.tag)).filterMap
    (fun i =>
      let text := jsTrim i.node.textContent
      if text ≠ "" && text.length < 200 then
        some ⟨headingLevel i.node.tag, text⟩
      else none)

/-- `$('a[href]')`: anchors kept when the href attribute and trimmed text
are non-empty, the text is at most 100 chars, and `new URL(href, url)`
resolves; classification by hostname equality with the source URL. -/
def collectLinks (doc : Node) (url : String) (srcHostname : String) : List LinkInfo :=
  ((docInfos doc).filter (fun i =>
      i.node.tag == "a" && (i.node.attr "href").isSome)).filterMap
    (fun i =>
      let href := (i.node.attr "href").getD ""
      let text := jsTrim i.node.textContent
      if href == "" || text == "" || text.length > 100 then none
      else
        match newURL href url with
        | none => none
        | some linkUrl =>
            some ⟨if linkUrl.hostname == srcHostname then .internal else .external,
                  href, text⟩)

/-- `$(tableEl).find('thead th, thead td, tr:first-child th')` texts. -/
def headerCells (t : Node) : List String :=
  ((subInfos t).filter (fun i =>
      ((i.node.tag == "th" || i.node.tag == "td") &&
        i.ancs.any (fun ab => ab.1.tag == "thead")) ||
      (i.node.tag == "th" &&
        i.ancs.any (fun ab => ab.1.tag == "tr" && ab.2)))).map
    (fun i => jsTrim i.node.textContent)

/-- `$(tableEl).find('tbody tr, tr')` (as a set: every `tr` descendant). -/
def trDescendants (t : Node) : List Node :=
  ((subInfos t).filter (fun i => i.node.tag == "tr")).map NodeInfo.node

/-- `$(tr).find('td, th')` texts of one row. -/
def rowCells (tr : Node) : List String :=
  ((subInfos tr).filter (fun i => i.node.tag == "td" || i.node.tag == "th")).map
    (fun i => jsTrim i.node.textContent)

/-- The data rows of one table: every `tr` descendant, skipping the row at
index 0 exactly when some header cells were found, keeping rows with at
least one cell and at least one non-empty cell. -/
def tableRows (t : Node) : List (List String) :=
  let trs := trDescendants t
  let headers := headerCells t
  let body := if headers.isEmpty then trs else trs.drop 1
  body.filterMap (fun tr =>
    let cells := rowCells tr
    if !cells.isEmpty && cells.any (fun c => c ≠ "") then some cells else none)

/-- `$('table')`: one `TableInfo` per table element with any headers or
rows. -/
def collectTables (doc : Node) : List TableInfo :=
  ((docInfos doc).filter (fun i => i.node.tag == "table")).filterMap
    (fun i =>
      let headers := headerCells i.node
      let rows := tableRows i.node
      if !headers.isEmpty || !rows.isEmpty then some ⟨headers, rows⟩ else none)

/-- The cheerio extraction of `scrapeUrl`: the returned `StructuredLP`,
minus the screenshot.  `none` models the `new URL(url)` throw in the link
section for an unparseable source URL (no digest is returned then); on the
pipeline's inputs the URL has already passed `validateUrlSecurity`. -/
def extract (doc : Node) (url : String) : Option StructuredLP :=
  match parseUrl url with
  | none => none
  | some parsedUrl =>
      some
        { url := url
          hero :=
            { -- `h1 || valueProps[0] || ''`
              headline := jsOrS (h1Text doc) ((collectValueProps doc).headD "")
              subHeadline := subHeadlineOf doc
              cta := heroCtaOf doc
              hasHeroImage := hasHeroImageOf doc }
          valueProps := (dedupFirst (collectValueProps doc)).take 10
          proof :=
            { testimonials := (dedupFirst (collectTestimonials doc)).take 5
              stats := (dedupFirst (collectStats doc)).take 10
              hasLogos := hasLogosOf doc
              media := (dedupFirst (collectMedia doc)).take 5 }
          pricing :=
            { displayed := hasPricingOf doc
              text := jsSlice (pricingTextOf doc) 500 }
          faq := (dedupFirst (collectFaq doc)).take 10
          trustSignals := trustSignalsOf doc
          urgency := (dedupFirst (collectUrgency doc)).take 5
          ctas := (dedupFirst (collectCtas doc)).take 10
          meta := { title := titleOf doc, description := descriptionOf doc }
          bodyText := bodyTextOf doc
          codeBlocks := (dedupFirst (collectCodeBlocks doc)).take 10
          headings := (collectHeadings doc).take 30
          links := (collectLinks doc url parsedUrl.hostname).take 20
          tables := (collectTables doc).take 10 }

end Geo

namespace Geo

/-! ### The diagnose POST pipeline (`diagnose.ts`), cache check onwards

`postAfterAuth` models Steps 2–5 of the handler for an authenticated
request that passed the credits-exhausted gate: cache lookup with the
tier-dependent `requiredModel`, early return on a hit, otherwise the
oracle call, the cache store and the credit consumption.  `oracleRow` is
the row that a (successful) oracle response would store; `now` feeds the
`consumeCredit` reset check. -/

def AI_MODEL_free : String := "claude-haiku-4-5-20251001"

def AI_MODEL_pro : String := "claude-sonnet-4-5-20250929"

structure DiagnoseOutcome where
  cacheHit : Bool
  /-- Was the scoring oracle (`callClaudeWithVision`) invoked? -/
  oracleCalled : Bool
  /-- `free_credits` values written to the profile row during Step 5. -/
  creditWrites : List Int
  /-- The `free_credits` field of the JSON response. -/
  responseFreeCredits : Int
  /-- Final state of the `analysis_results` table. -/
  finalDb : List CacheRow
deriving DecidableEq

def postAfterAuth (db : List CacheRow) (now : Int) (profile : Profile)
    (urlHash contentHash language : String) (oracleRow : CacheRow) :
    DiagnoseOutcome :=
  let isPremium := profile.is_premium
  let freeCredits := profile.free_credits
  -- Pro users only accept Pro-model cache entries; free users take any.
  let requiredModel := if isPremium then some AI_MODEL_pro else none
  match getCachedResult db urlHash contentHash language requiredModel with
  | some _ =>
      { cacheHit := true, oracleCalled := false, creditWrites := [],
        responseFreeCredits := freeCredits, finalDb := db }
  | none =>
      let db2 := saveCachedResult db oracleRow
      if isPremium then
        { cacheHit := false, oracleCalled := true, creditWrites := [],
          responseFreeCredits := freeCredits, finalDb := db2 }
      else
        let r := consumeCredit now (some profile)
        { cacheHit := false, oracleCalled := true, creditWrites := r.2.2,
          responseFreeCredits := if r.1 then freeCredits - 1 else freeCredits,
          finalDb := db2 }

end Geo

namespace Geo

/-! ### Cache lookup lemmas -/

theorem latestRow_mem {l : List CacheRow} {e : CacheRow}
    (h : latestRow l = some e) : e ∈ l := by
  induction l with
  | nil => simp [latestRow] at h
  | cons r rs ih =>
      rw [latestRow] at h
      cases hrs : latestRow rs with
      | none =>
          rw [hrs] at h
          injection h with h
          exact h ▸ List.mem_cons_self _ _
      | some best =>
          rw [hrs] at h
          dsimp only at h
          by_cases hgt : best.created_at > r.created_at
          · rw [if_pos hgt] at h
            injection h with h
            exact List.mem_cons_of_mem _ (ih (h ▸ hrs))
          · rw [if_neg hgt] at h
            injection h with h
            exact h ▸ List.mem_cons_self _ _

theorem latestRow_ge {l : List CacheRow} {e : CacheRow} :
    latestRow l = some e → ∀ r ∈ l, r.created_at ≤ e.created_at := by
  induction l generalizing e with
  | nil => intro h; simp [latestRow] at h
  | cons r rs ih =>
      intro h x hx
      rw [latestRow] at h
      cases hrs : latestRow rs with
      | none =>
          rw [hrs] at h
          injection h with h
          subst h
          rcases List.mem_cons.mp hx with rfl | hx
          · exact le_refl _
          · cases rs with
            | nil => simp at hx
            | cons a as =>
                rw [latestRow] at hrs
                cases has : latestRow as <;> rw [has] at hrs <;> simp at hrs
                split at hrs <;> simp at hrs
      | some best =>
          rw [hrs] at h
          dsimp only at h
          by_cases hgt : best.created_at > r.created_at
          · rw [if_pos hgt] at h
            injection h with h
            subst h
            rcases List.mem_cons.mp hx with rfl | hx
            · exact le_of_lt hgt
            · exact ih hrs x hx
          · rw [if_neg hgt] at h
            injection h with h
            subst h
            rcases List.mem_cons.mp hx with rfl | hx
            · exact le_refl _
            · exact le_trans (ih hrs x hx) (le_of_not_lt hgt)

theorem getCachedResult_matches {db : List CacheRow} {u c lang : String}
    {m? : Option String} {e : CacheRow}
    (h : getCachedResult db u c lang m? = some e) :
    e ∈ db ∧ rowMatches u c lang m? e = true := by
  have hm := latestRow_mem h
  exact ⟨(List.mem_filter.mp hm).1, (List.mem_filter.mp hm).2⟩

/-! ### Claim C3 -/

def c3proRow : CacheRow :=
  { url_hash := "u", content_hash := "c", language := "ja", model := "pro",
    overall_score := 80, advice_data := "advice-pro", created_at := 1 }

def c3freeRow : CacheRow :=
  { url_hash := "u", content_hash := "c", language := "ja", model := "free",
    overall_score := 70, advice_data := "advice-free", created_at := 2 }

def c3db : List CacheRow :=
  saveCachedResult (saveCachedResult [] c3proRow) c3freeRow

/-- C3: when `requiredModelTag` is supplied, `getCachedResult` only returns
an entry whose model tag equals it exactly; in the store-"pro"-then-"free"
scenario for one url/content/language, a lookup requiring "pro" returns the
"pro" entry and never the "free" one; with the tag omitted, the lookup
returns the most recent entry matching the key regardless of model tag. -/
theorem C3_model_tag_isolation :
    (∀ (db : List CacheRow) (u c lang m : String) (e : CacheRow),
        getCachedResult db u c lang (some m) = some e → e.model = m) ∧
    (∀ (db : List CacheRow) (u c lang : String) (e : CacheRow),
        getCachedResult db u c lang none = some e →
          e.url_hash = u ∧ e.content_hash = c ∧ e.language = lang ∧
          ∀ r ∈ db, rowMatches u c lang none r = true →
            r.created_at ≤ e.created_at) ∧
    getCachedResult c3db "u" "c" "ja" (some "pro") = some c3proRow ∧
    getCachedResult c3db "u" "c" "ja" none = some c3freeRow := by
  refine ⟨?_, ?_, by decide, by decide⟩
  · intro db u c lang m e h
    have hm := (getCachedResult_matches h).2
    simp only [rowMatches, Bool.and_eq_true, beq_iff_eq] at hm
    exact hm.2
  · intro db u c lang e h
    have hm := getCachedResult_matches h
    have hfields := hm.2
    simp only [rowMatches, Bool.and_eq_true, beq_iff_eq] at hfields
    refine ⟨hfields.1.1.1, hfields.1.1.2, hfields.1.2, ?_⟩
    intro r hr hmatch
    exact latestRow_ge h r (List.mem_filter.mpr ⟨hr, hmatch⟩)

theorem C3_witness :
    c3proRow.model = "pro" ∧ c3freeRow.created_at ≤ c3freeRow.created_at :=
  ⟨C3_model_tag_isolation.1 c3db "u" "c" "ja" "pro" c3proRow (by decide),
   (C3_model_tag_isolation.2.1 c3db "u" "c" "ja" c3freeRow (by decide)).2.2.2
     c3freeRow (by decide) (by decide)⟩

/-! ### Claim C4 -/

/-- C4: on a cache hit, the pipeline neither calls the scoring oracle nor
consumes a usage credit — the cached result is returned with the caller's
credit balance unchanged and nothing written. -/
theorem C4_cache_hit_no_oracle_no_credit
    (db : List CacheRow) (now : Int) (profile : Profile)
    (u c lang : String) (oracleRow : CacheRow)
    (hhit : (getCachedResult db u c lang
        (if profile.is_premium then some AI_MODEL_pro else none)).isSome = true) :
    postAfterAuth db now profile u c lang oracleRow =
      { cacheHit := true, oracleCalled := false, creditWrites := [],
        responseFreeCredits := profile.free_credits, finalDb := db } := by
  unfold postAfterAuth
  cases hq : getCachedResult db u c lang
      (if profile.is_premium then some AI_MODEL_pro else none) with
  | none => rw [hq] at hhit; simp at hhit
  | some e => simp only [hq]

def c4row : CacheRow :=
  { url_hash := "u", content_hash := "c", language := "ja",
    model := "claude-haiku-4-5-20251001", overall_score := 55,
    advice_data := "adv", created_at := 7 }

def c4profile : Profile :=
  { is_premium := false, free_credits := 2, credits_reset_at := some 0 }

theorem C4_witness :
    postAfterAuth [c4row] 3 c4profile "u" "c" "ja" c4row =
      { cacheHit := true, oracleCalled := false, creditWrites := [],
        responseFreeCredits := 2, finalDb := [c4row] } :=
  C4_cache_hit_no_oracle_no_credit [c4row] 3 c4profile "u" "c" "ja" c4row (by decide)

/-! ### Claim C5 -/

/-- C5: `validateUrlSecurity` rejects the non-web scheme, the loopback
address, the metadata address and the blocked hostname with a typed error
(pure validation, before any fetch), and accepts the public URL when DNS
resolves it to no private address. -/
theorem C5_addressGuard_verdicts (r4 r6 : String → List String) :
    validateUrlSecurity r4 r6 "ftp://example.com" = .error .badProtocol ∧
    validateUrlSecurity r4 r6 "http://127.0.0.1/" = .error .blockedHostname ∧
    validateUrlSecurity r4 r6 "http://169.254.169.254/" = .error .blockedHostname ∧
    validateUrlSecurity r4 r6 "http://localhost:4321" = .error .blockedHostname ∧
    ((∀ a ∈ r4 "example.com", isPrivateIP a = false) →
     (∀ a ∈ r6 "example.com", isPrivateIP a = false) →
     validateUrlSecurity r4 r6 "https://example.com/article" = .ok ()) := by
  refine ⟨rfl, rfl, rfl, rfl, ?_⟩
  intro h4 h6
  have e4 : (r4 "example.com").any isPrivateIP = false := by
    rw [List.any_eq_false]
    intro a ha
    simp [h4 a ha]
  have e6 : (r6 "example.com").any isPrivateIP = false := by
    rw [List.any_eq_false]
    intro a ha
    simp [h6 a ha]
  show (if (r4 "example.com").any isPrivateIP then
          (.error .dnsPrivateIp : Except UrlError Unit)
        else if (r6 "example.com").any isPrivateIP then .error .dnsPrivateIp
        else .ok ()) = .ok ()
  rw [e4, e6]
  rfl

theorem C5_witness :
    validateUrlSecurity (fun _ => []) (fun _ => []) "https://example.com/article" = .ok () ∧
    validateUrlSecurity (fun _ => []) (fun _ => []) "ftp://example.com" = .error .badProtocol :=
  ⟨(C5_addressGuard_verdicts (fun _ => []) (fun _ => [])).2.2.2.2
      (by intro a ha; simp at ha) (by intro a ha; simp at ha),
   (C5_addressGuard_verdicts (fun _ => []) (fun _ => [])).1⟩

end Geo

namespace Geo

/-! ### Claim C9 -/

def c9profile : Profile :=
  { is_premium := false, free_credits := 0, credits_reset_at := none }

/-- C9 counterexample: a non-premium profile with `free_credits = 0` and no
`credits_reset_at` — the claim says `consumeCredit` returns `false` without
an update, but the embedded rolling-reset (`checkAndResetCredits`, called
first) writes `free_credits = 3` and the decrement then writes `2`, and the
call returns `true`. -/
theorem C9_counterexample :
    c9profile.is_premium = false ∧ c9profile.free_credits ≤ 0 ∧
    (consumeCredit 0 (some c9profile)).1 = true ∧
    (consumeCredit 0 (some c9profile)).2.2 = [3, 2] := by
  refine ⟨rfl, by decide, by decide, by decide⟩

/-- C9 amended: `consumeCredit` never writes a negative `free_credits`
value; and provided the 30-day rolling reset does not fire (a reset
timestamp exists and is at most 30 days old), a premium user gets `true`
with no write, a non-premium user with no credits gets `false` with no
write, and a non-premium user with credits gets `true` with exactly one
write of `free_credits - 1`. -/
theorem C9_consumeCredit_floor (now : Int) (p : Profile) :
    (∀ v ∈ (consumeCredit now (some p)).2.2, 0 ≤ v) ∧
    (∀ resetAt : Int, p.credits_reset_at = some resetAt →
      now - resetAt ≤ thirtyDaysMs →
        (p.is_premium = true → consumeCredit now (some p) = (true, some p, [])) ∧
        (p.is_premium = false → p.free_credits ≤ 0 →
          consumeCredit now (some p) = (false, some p, [])) ∧
        (p.is_premium = false → 0 < p.free_credits →
          consumeCredit now (some p) =
            (true, some { p with free_credits := p.free_credits - 1 },
             [p.free_credits - 1]))) := by
  obtain ⟨prem, credits, rst⟩ := p
  constructor
  · intro v hv
    cases rst with
    | none =>
        cases prem with
        | true =>
            simp [consumeCredit, checkAndResetCredits] at hv
            omega
        | false =>
            simp [consumeCredit, checkAndResetCredits] at hv
            rcases hv with rfl | rfl <;> omega
    | some r =>
        by_cases ht : now - r > thirtyDaysMs
        · cases prem with
          | true =>
              simp [consumeCredit, checkAndResetCredits, ht] at hv
              omega
          | false =>
              simp [consumeCredit, checkAndResetCredits, ht] at hv
              rcases hv with rfl | rfl <;> omega
        · cases prem with
          | true =>
              simp [consumeCredit, checkAndResetCredits, ht] at hv
          | false =>
              by_cases hc : credits ≤ 0
              · simp [consumeCredit, checkAndResetCredits, ht, hc] at hv
              · simp [consumeCredit, checkAndResetCredits, ht, hc] at hv
                omega
  · intro resetAt hres hle
    cases hres
    have ht : ¬ (now - resetAt > thirtyDaysMs) := by omega
    refine ⟨?_, ?_, ?_⟩
    · intro hp
      cases hp
      simp [consumeCredit, checkAndResetCredits, ht]
    · intro hp hc
      cases hp
      simp [consumeCredit, checkAndResetCredits, ht, hc]
    · intro hp hc
      cases hp
      dsimp only at hc
      have hc2 : ¬ (credits ≤ 0) := by omega
      simp [consumeCredit, checkAndResetCredits, ht, hc2]

def c9wProfile : Profile :=
  { is_premium := false, free_credits := 2, credits_reset_at := some 0 }

theorem C9_witness :
    consumeCredit 0 (some c9wProfile) =
      (true, some { is_premium := false, free_credits := 1,
                    credits_reset_at := some 0 }, [1]) ∧
    (0 : Int) - 0 ≤ thirtyDaysMs :=
  ⟨((C9_consumeCredit_floor 0 c9wProfile).2 0 rfl
      (by norm_num [thirtyDaysMs])).2.2 rfl (by norm_num [c9wProfile]),
   by norm_num [thirtyDaysMs]⟩

end Geo

namespace Geo

/-! ### Bounded deduplicated collections (claims C1, C7, C8, C10) -/

/-- `out` is `raw` deduplicated keeping first occurrences and truncated to
`cap`: exactly what `[...new Set(raw)].slice(0, cap)` produces. -/
def boundedDedup (raw : List String) (cap : Nat) (out : List String) : Prop :=
  out = (dedupFirst raw).take cap ∧ out.length ≤ cap ∧ out.Nodup ∧
  List.Sublist out raw

theorem boundedDedup_mk (raw : List String) (cap : Nat) :
    boundedDedup raw cap ((dedupFirst raw).take cap) := by
  refine ⟨rfl, List.length_take_le cap _, ?_, ?_⟩
  · exact (dedupFirst_nodup raw).sublist (List.take_sublist cap _)
  · exact (List.take_sublist cap _).trans (dedupFirst_sublist raw)

def c1doc : Node :=
  .elem "body" [] [.elem "h2" [] [.text "A"], .elem "h2" [] [.text "A"]]

/-- C1 counterexample: a document with two identical `h2` headings.  The
digest's `headings` field keeps both copies — `headings` (like `links` and
`tables`) is truncated without any deduplication, contradicting the claim
that every bounded collection of the digest is deduplicated before
truncation. -/
theorem C1_counterexample :
    (extract c1doc "https://example.com/").map StructuredLP.headings =
      some [⟨2, "A"⟩, ⟨2, "A"⟩] ∧
    ¬ ([⟨2, "A"⟩, ⟨2, "A"⟩] : List Heading).Nodup := by
  exact ⟨by decide, by decide⟩

/-- C1 amended: every cap holds for every input, and the string-valued
collections (valueProps, testimonials, stats, media, faq, urgencyMarkers,
callsToAction, codeBlocks) are deduplicated by exact string equality before
truncation, truncation keeping the first-encountered document-order
elements; `headings`, `links` and `tables` are truncated to 30/20/10
without deduplication. -/
theorem C1_bounded_collections (doc : Node) (url : String) (d : StructuredLP)
    (h : extract doc url = some d) :
    boundedDedup (collectValueProps doc) 10 d.valueProps ∧
    boundedDedup (collectTestimonials doc) 5 d.proof.testimonials ∧
    boundedDedup (collectStats doc) 10 d.proof.stats ∧
    boundedDedup (collectMedia doc) 5 d.proof.media ∧
    boundedDedup (collectFaq doc) 10 d.faq ∧
    boundedDedup (collectUrgency doc) 5 d.urgency ∧
    boundedDedup (collectCtas doc) 10 d.ctas ∧
    boundedDedup (collectCodeBlocks doc) 10 d.codeBlocks ∧
    d.headings = (collectHeadings doc).take 30 ∧ d.headings.length ≤ 30 ∧
    d.links.length ≤ 20 ∧
    d.tables = (collectTables doc).take 10 ∧ d.tables.length ≤ 10 := by
  rw [extract] at h
  cases hp : parseUrl url with
  | none => rw [hp] at h; exact absurd h (by simp)
  | some pu =>
      rw [hp] at h
      injection h with h
      subst h
      refine ⟨boundedDedup_mk _ _, boundedDedup_mk _ _, boundedDedup_mk _ _,
        boundedDedup_mk _ _, boundedDedup_mk _ _, boundedDedup_mk _ _,
        boundedDedup_mk _ _, boundedDedup_mk _ _, rfl,
        List.length_take_le _ _, List.length_take_le _ _, rfl,
        List.length_take_le _ _⟩

def c1wdoc : Node :=
  .elem "body" [] [.elem "h2" [] [.text "One"], .elem "h2" [] [.text "One"],
    .elem "h3" [] [.text "Two"]]

def emptyLP : StructuredLP :=
  { url := "", hero := { headline := "", subHeadline := "", cta := "", hasHeroImage := false },
    valueProps := [],
    proof := { testimonials := [], stats := [], hasLogos := false, media := [] },
    pricing := { displayed := false, text := "" },
    faq := [],
    trustSignals := { hasCompanyInfo := false, hasPrivacyPolicy := false,
                      hasTokushoho := false, hasContact := false },
    urgency := [], ctas := [],
    meta := { title := "", description := "" },
    bodyText := "", codeBlocks := [], headings := [], links := [], tables := [] }

def c1wDigest : StructuredLP :=
  (extract c1wdoc "https://example.com/").getD emptyLP

theorem C1_witness :
    extract c1wdoc "https://example.com/" = some c1wDigest ∧
    boundedDedup (collectValueProps c1wdoc) 10 c1wDigest.valueProps :=
  ⟨by decide,
   (C1_bounded_collections c1wdoc "https://example.com/" c1wDigest (by decide)).1⟩

/-! ### Claim C7 -/

/-- C7: `bodyText` prefers paragraphs under semantic content containers,
falls back to all paragraphs exactly when the scoped collection gathered
nothing, deduplicates the collected paragraphs, joins them with a blank
line, and is hard-capped at 5000 characters for every input. -/
theorem C7_bodyText (doc : Node) (url : String) (d : StructuredLP)
    (h : extract doc url = some d) :
    d.bodyText.length ≤ 5000 ∧
    (scopedParagraphs doc ≠ [] →
      d.bodyText =
        jsSlice (String.intercalate "\n\n" (dedupFirst (scopedParagraphs doc))) 5000) ∧
    (scopedParagraphs doc = [] →
      d.bodyText =
        jsSlice (String.intercalate "\n\n" (dedupFirst (allParagraphs doc))) 5000) := by
  rw [extract] at h
  cases hp : parseUrl url with
  | none => rw [hp] at h; exact absurd h (by simp)
  | some pu =>
      rw [hp] at h
      injection h with h
      subst h
      refine ⟨length_jsSlice_le _ _, ?_, ?_⟩
      · intro hne
        show bodyTextOf doc = _
        rw [bodyTextOf, bodyParagraphsOf]
        rw [if_neg (by simpa [List.isEmpty_iff] using hne)]
      · intro heq
        show bodyTextOf doc = _
        rw [bodyTextOf, bodyParagraphsOf]
        rw [if_pos (by simpa [List.isEmpty_iff] using heq)]

def c7doc : Node :=
  .elem "body" []
    [.elem "article" []
      [.elem "p" [] [.text "This is the scoped paragraph, safely over thirty chars."]],
     .elem "p" [] [.text "This unscoped paragraph is also over thirty characters."]]

def c7digest : StructuredLP :=
  (extract c7doc "https://example.com/").getD emptyLP

set_option maxRecDepth 40000 in
theorem C7_witness :
    extract c7doc "https://example.com/" = some c7digest ∧
    c7digest.bodyText.length ≤ 5000 ∧
    c7digest.bodyText = "This is the scoped paragraph, safely over thirty chars." :=
  ⟨by decide,
   (C7_bodyText c7doc "https://example.com/" c7digest (by decide)).1,
   by decide⟩

/-! ### Claim C10 -/

/-- C10: when no `h1` element of the (stripped) document has non-empty
trimmed text, the hero headline falls back to the first collected
valueProp, and to the empty string when none was collected. -/
theorem C10_headline_fallback (doc : Node) (url : String) (d : StructuredLP)
    (h : extract doc url = some d)
    (hh1 : ∀ i ∈ docInfos doc, i.node.tag = "h1" → jsTrim i.node.textContent = "") :
    d.hero.headline = (collectValueProps doc).headD "" ∧
    (collectValueProps doc = [] → d.hero.headline = "") := by
  have hh : h1Text doc = "" := by
    rw [h1Text]
    cases hf : (docInfos doc).find? (fun i => i.node.tag == "h1") with
    | none => rfl
    | some i =>
        have hmem := List.mem_of_find?_eq_some hf
        have hpred := List.find?_some hf
        exact hh1 i hmem (by simpa using hpred)
  rw [extract] at h
  cases hp : parseUrl url with
  | none => rw [hp] at h; exact absurd h (by simp)
  | some pu =>
      rw [hp] at h
      injection h with h
      subst h
      constructor
      · show jsOrS (h1Text doc) ((collectValueProps doc).headD "") = _
        rw [hh, jsOrS, if_pos rfl]
      · intro hempty
        show jsOrS (h1Text doc) ((collectValueProps doc).headD "") = ""
        rw [hh, hempty, jsOrS, if_pos rfl]
        rfl

def c10doc : Node :=
  .elem "body" [] [.elem "h1" [] [.text "   "], .elem "h2" [] [.text "First prop"]]

def c10digest : StructuredLP :=
  (extract c10doc "https://example.com/").getD emptyLP

set_option maxRecDepth 40000 in
theorem C10_witness :
    extract c10doc "https://example.com/" = some c10digest ∧
    c10digest.hero.headline = "First prop" ∧
    (collectValueProps c10doc).headD "" = "First prop" :=
  ⟨by decide,
   by
     have h := C10_headline_fallback c10doc "https://example.com/" c10digest
       (by decide) (by decide)
     rw [h.1]
     decide,
   by decide⟩

end Geo

namespace Geo

/-! ### Claim C8 -/

/-- C8: every link of the digest comes from an anchor with an `href`
attribute, has non-empty visible text of at most 100 characters, and an
href that resolves against the source URL; anchors failing any of these
are dropped (the collection is a total `filterMap` — nothing raises). -/
theorem C8_link_admission (doc : Node) (url : String) (d : StructuredLP)
    (l : LinkInfo) (h : extract doc url = some d) (hl : l ∈ d.links) :
    l.text ≠ "" ∧ l.text.length ≤ 100 ∧ (newURL l.url url).isSome = true ∧
    ∃ i ∈ docInfos doc, i.node.tag = "a" ∧ i.node.attr "href" = some l.url := by
  rw [extract] at h
  cases hp : parseUrl url with
  | none => rw [hp] at h; exact absurd h (by simp)
  | some pu =>
      rw [hp] at h
      injection h with h
      subst h
      have hl2 : l ∈ collectLinks doc url pu.hostname := List.mem_of_mem_take hl
      rw [collectLinks] at hl2
      rcases List.mem_filterMap.mp hl2 with ⟨i, hi, hfi⟩
      have hianc := List.mem_filter.mp hi
      have hcond := hianc.2
      simp only [Bool.and_eq_true, beq_iff_eq] at hcond
      obtain ⟨htag, hsome⟩ := hcond
      obtain ⟨href, hhref⟩ := Option.isSome_iff_exists.mp hsome
      rw [hhref] at hfi
      dsimp only [Option.getD] at hfi
      split at hfi
      · exact absurd hfi (by simp)
      · rename_i hguard
        simp only [Bool.or_eq_true, beq_iff_eq, decide_eq_true_eq, not_or] at hguard
        obtain ⟨⟨hhne, htne⟩, htlen⟩ := hguard
        cases hu : newURL href url with
        | none => rw [hu] at hfi; exact absurd hfi (by simp)
        | some lu =>
            rw [hu] at hfi
            injection hfi with hfi
            subst hfi
            refine ⟨htne, by dsimp only; omega, by rw [hu]; rfl, i, hianc.1, htag, ?_⟩
            exact hhref

def c8doc : Node :=
  .elem "body" []
    [.elem "a" [("href", "/path")] [.text "go"],
     .elem "a" [] [.text "nohref"],
     .elem "a" [("href", "/q")] [.text ""],
     .elem "a" [("href", "")] [.text "emptyhref"]]

def c8digest : StructuredLP :=
  (extract c8doc "https://example.com/").getD emptyLP

set_option maxRecDepth 40000 in
theorem C8_witness :
    (⟨LinkType.internal, "/path", "go"⟩ : LinkInfo) ∈ c8digest.links ∧
    c8digest.links = [⟨LinkType.internal, "/path", "go"⟩] ∧
    ("go" : String) ≠ "" ∧ ("go" : String).length ≤ 100 ∧
    (newURL "/path" "https://example.com/").isSome = true := by
  have h := C8_link_admission c8doc "https://example.com/" c8digest
    ⟨LinkType.internal, "/path", "go"⟩ (by decide) (by decide)
  exact ⟨by decide, by decide, h.1, h.2.1, h.2.2.1⟩

end Geo

namespace Geo

/-! ### Claim C6 -/

def mkCell (tg s : String) : Node := .elem tg [] [.text s]

def mkTr (cells : List Node) : Node := .elem "tr" [] cells

/-- A canonical table: a one-row `thead` of `th` header cells and a
`tbody` with two `td` data rows. -/
def mkHeaderTable (hs r1 r2 : List String) : Node :=
  .elem "table" []
    [.elem "thead" [] [mkTr (hs.map (mkCell "th"))],
     .elem "tbody" [] [mkTr (r1.map (mkCell "td")), mkTr (r2.map (mkCell "td"))]]

def c6wrap (t : Node) : Node :=
  .elem "html" [] [.elem "body" [] [t]]

def c6doc : Node :=
  c6wrap (.elem "table" []
    [.elem "thead" [] [mkTr [mkCell "th" "A"], mkTr [mkCell "th" "B"]],
     .elem "tbody" [] [mkTr [mkCell "td" "c1", mkCell "td" "c2"],
                       mkTr [mkCell "td" "d1", mkCell "td" "d2"]]])

/-- C6 counterexample: a table whose `thead` holds two header rows.  Both
rows' cells land in `headers`, but only the row at index 0 is skipped, so
the second header row (`["B"]`) appears among the data rows — the header
row is not excluded under this ambiguous markup, and `rows.length` is 3,
not 2. -/
theorem C6_counterexample :
    (extract c6doc "https://example.com/").map StructuredLP.tables =
      some [⟨["A", "B"], [["B"], ["c1", "c2"], ["d1", "d2"]]⟩] ∧
    ["B"] ∈ [["B"], ["c1", "c2"], ["d1", "d2"]] ∧
    ("B" : String) ∈ (["A", "B"] : List String) :=
  ⟨by decide, by decide, by decide⟩

end Geo

namespace Geo


set_option maxRecDepth 100000 in
/-- C6 amended: headers are collected from `thead` cells and from `th`
cells of first-child rows, and only the `tr` at index 0 (in document
order) is excluded from the data rows, exactly when some header cells were
found.  For a canonical table — one header row in `thead`, two non-empty
data rows — the headers equal the header-cell texts and the data rows are
exactly the two data rows (header row excluded), so `headers.length` is
the header-cell count and `rows.length = 2`. -/
theorem C6_header_row_exclusion (a1 a2 a3 b1 b2 b3 c1 c2 c3 : String)
    (hclean : ∀ s ∈ [a1, a2, a3, b1, b2, b3, c1, c2, c3], jsTrim s = s ∧ s ≠ "") :
    headerCells (mkHeaderTable [a1, a2, a3] [b1, b2, b3] [c1, c2, c3]) = [a1, a2, a3] ∧
    tableRows (mkHeaderTable [a1, a2, a3] [b1, b2, b3] [c1, c2, c3]) =
      [[b1, b2, b3], [c1, c2, c3]] ∧
    (extract (c6wrap (mkHeaderTable [a1, a2, a3] [b1, b2, b3] [c1, c2, c3]))
        "https://example.com/").map StructuredLP.tables =
      some [⟨[a1, a2, a3], [[b1, b2, b3], [c1, c2, c3]]⟩] ∧
    (∀ t : Node, headerCells t ≠ [] →
      tableRows t = ((trDescendants t).drop 1).filterMap (fun tr =>
        let cells := rowCells tr
        if !cells.isEmpty && cells.any (fun c => c ≠ "") then some cells else none)) := by
  obtain ⟨ta1, na1⟩ := hclean a1 (by simp)
  obtain ⟨ta2, na2⟩ := hclean a2 (by simp)
  obtain ⟨ta3, na3⟩ := hclean a3 (by simp)
  obtain ⟨tb1, nb1⟩ := hclean b1 (by simp)
  obtain ⟨tb2, nb2⟩ := hclean b2 (by simp)
  obtain ⟨tb3, nb3⟩ := hclean b3 (by simp)
  obtain ⟨tc1, nc1⟩ := hclean c1 (by simp)
  obtain ⟨tc2, nc2⟩ := hclean c2 (by simp)
  obtain ⟨tc3, nc3⟩ := hclean c3 (by simp)
  have hh : headerCells (mkHeaderTable [a1, a2, a3] [b1, b2, b3] [c1, c2, c3]) =
      [a1, a2, a3] := by
    rw [show headerCells (mkHeaderTable [a1, a2, a3] [b1, b2, b3] [c1, c2, c3]) =
        [jsTrim (a1 ++ ""), jsTrim (a2 ++ ""), jsTrim (a3 ++ "")] from rfl]
    simp only [String.append_empty, ta1, ta2, ta3]
  have fB : (fun tr =>
      let cells := rowCells tr
      if !cells.isEmpty && cells.any (fun c => c ≠ "") then some cells else none)
      (mkTr ([b1, b2, b3].map (mkCell "td"))) = some [b1, b2, b3] := by
    show (let cells := [jsTrim (b1 ++ ""), jsTrim (b2 ++ ""), jsTrim (b3 ++ "")]
          if !cells.isEmpty && cells.any (fun c => c ≠ "") then some cells else none) =
        some [b1, b2, b3]
    simp only [String.append_empty, tb1, tb2, tb3]
    simp [nb1]
  have fC : (fun tr =>
      let cells := rowCells tr
      if !cells.isEmpty && cells.any (fun c => c ≠ "") then some cells else none)
      (mkTr ([c1, c2, c3].map (mkCell "td"))) = some [c1, c2, c3] := by
    show (let cells := [jsTrim (c1 ++ ""), jsTrim (c2 ++ ""), jsTrim (c3 ++ "")]
          if !cells.isEmpty && cells.any (fun c => c ≠ "") then some cells else none) =
        some [c1, c2, c3]
    simp only [String.append_empty, tc1, tc2, tc3]
    simp [nc1]
  have hrows : tableRows (mkHeaderTable [a1, a2, a3] [b1, b2, b3] [c1, c2, c3]) =
      [[b1, b2, b3], [c1, c2, c3]] := by
    rw [show tableRows (mkHeaderTable [a1, a2, a3] [b1, b2, b3] [c1, c2, c3]) =
        [mkTr ([b1, b2, b3].map (mkCell "td")),
         mkTr ([c1, c2, c3].map (mkCell "td"))].filterMap
          (fun tr =>
            let cells := rowCells tr
            if !cells.isEmpty && cells.any (fun c => c ≠ "") then some cells
            else none) from rfl]
    simp only [List.filterMap_cons, List.filterMap_nil, fB, fC]
  refine ⟨hh, hrows, ?_, ?_⟩
  · rw [show (extract (c6wrap (mkHeaderTable [a1, a2, a3] [b1, b2, b3] [c1, c2, c3]))
        "https://example.com/").map StructuredLP.tables =
        some [(⟨headerCells (mkHeaderTable [a1, a2, a3] [b1, b2, b3] [c1, c2, c3]),
               tableRows (mkHeaderTable [a1, a2, a3] [b1, b2, b3] [c1, c2, c3])⟩ :
                 TableInfo)] from rfl]
    rw [hh, hrows]
  · intro t ht
    have hne : (headerCells t).isEmpty = false := by
      cases hemp : (headerCells t).isEmpty
      · rfl
      · exact absurd (List.isEmpty_iff.mp hemp) ht
    simp only [tableRows, hne, Bool.false_eq_true, if_false]

end Geo

namespace Geo

theorem C6_witness :
    headerCells (mkHeaderTable ["A", "B", "C"] ["c1", "c2", "c3"] ["d1", "d2", "d3"]) =
      ["A", "B", "C"] ∧
    tableRows (mkHeaderTable ["A", "B", "C"] ["c1", "c2", "c3"] ["d1", "d2", "d3"]) =
      [["c1", "c2", "c3"], ["d1", "d2", "d3"]] := by
  have h := C6_header_row_exclusion "A" "B" "C" "c1" "c2" "c3" "d1" "d2" "d3" (by decide)
  exact ⟨h.1, h.2.1⟩

end Geo
